import Mathlib

/-!
Verification of the core logic of the AI investor-advisor app
(`app.py` together with its bundled minimal `pandas.py`):
ticker resolution, price-series normalization, and portfolio-risk
computation.  Python strings are modelled as `String`, float values as
`PyNum` (a rational or NaN), dataframes as explicit column lists, and
fallible code as `Except`.
-/

namespace AIAdvisor

/-- Python numeric (float) values as they arise in the app: a rational
number or NaN. -/
inductive PyNum where
  | num (q : ℚ)
  | nan
  deriving DecidableEq, Repr

/-- A raw cell of the portfolio weight column, classified by the outcome of
Python `float(v)`: `num q` for cells `float` accepts (numbers or numeric
strings such as `"25"`), `nonNumeric s` for strings it rejects. -/
inductive Cell where
  | num (q : ℚ)
  | nonNumeric (s : String)
  deriving DecidableEq, Repr

/-- `str.lower` from Python, for the app's alphabets (ASCII letters are
lowered; Hangul and other characters have no lowercase mapping and are
unchanged, exactly as `Char.toLower` behaves). -/
def pyLower (s : String) : String := ⟨s.data.map Char.toLower⟩

/-- `listLeads n h`: the character list `n` is a leading segment of `h`. -/
def listLeads : List Char → List Char → Bool
  | [], _ => true
  | _ :: _, [] => false
  | a :: as, b :: bs => a == b && listLeads as bs

/-- `listHasSub n h`: `n` occurs as a contiguous segment of `h`
(Python `n in h` on strings). -/
def listHasSub (needle : List Char) : List Char → Bool
  | [] => needle.isEmpty
  | b :: bs => listLeads needle (b :: bs) || listHasSub needle bs

/-- Python substring test `needle in hay`. -/
def strHasSub (hay needle : String) : Bool := listHasSub needle.data hay.data

/-- Python `dict` assignment `d[k] = v` on a dict represented as an ordered
association list with unique keys: an existing key keeps its position and
gets the new value, a new key is appended. -/
def dictInsert [DecidableEq κ] : List (κ × α) → κ → α → List (κ × α)
  | [], k, v => [(k, v)]
  | p :: t, k, v => if p.1 = k then (k, v) :: t else p :: dictInsert t k v

/-- Python `dict` lookup `d[k]`, `none` when the key is absent (a
`KeyError`). -/
def dictFind? [DecidableEq κ] : List (κ × α) → κ → Option α
  | [], _ => none
  | p :: t, k => if p.1 = k then some p.2 else dictFind? t k

/-- Build a Python dict from a list of key-value pairs in order
(`{k: v for k, v in pairs}`): duplicate keys keep their first position with
the last value. -/
def dictOfPairs [DecidableEq κ] (l : List (κ × α)) : List (κ × α) :=
  l.foldl (fun d p => dictInsert d p.1 p.2) []

/-- The built-in fallback mapping `example_map` of `load_ticker_map`
(app.py): `{"테슬라": "TSLA", "애플": "AAPL"}`. -/
def example_map : List (String × String) := [("테슬라", "TSLA"), ("애플", "AAPL")]

/-- `load_ticker_map` from app.py.  The outcome of `pd.read_csv("tickers.csv")`
is passed in as an `Except`: `.ok rows` is the list of `(name, ticker)` rows,
`.error` is any raised exception (`FileNotFoundError` or any other
`Exception`; both handlers return `example_map` after `st.warning`).  The
returned Bool records whether a warning was surfaced. -/
def load_ticker_map (csvLoad : Except String (List (String × String))) :
    List (String × String) × Bool :=
  match csvLoad with
  | .ok rows => (dictOfPairs (rows.map fun p => (pyLower p.1, p.2)), false)
  | .error _ => (example_map, true)

/-- The loop of `detect_ticker` (app.py): scan the ticker map in iteration
order, returning the first entry whose key or lower-cased ticker occurs as
a substring of the lowered query. -/
def detectLoop (textLow : String) : List (String × String) → Option String
  | [] => none
  | (key, tkr) :: rest =>
      if strHasSub textLow key || strHasSub textLow (pyLower tkr) then some tkr
      else detectLoop textLow rest

/-- `detect_ticker` from app.py (the ticker map is passed explicitly; in the
app it is the module-level `TICKER_MAP`).  An empty query is falsy and
returns `None` before any matching. -/
def detect_ticker (tickerMap : List (String × String)) (text : String) :
    Option String :=
  if text = "" then none
  else detectLoop (pyLower text) tickerMap

/-- Modelled from the spec: the ticker configuration file `tickers.csv` is
not among the sources (only its loader is); per the spec's examples it maps
Korean and English aliases of Tesla and Apple to their symbols.  Keys are
already lower case, as `load_ticker_map` lower-cases them on load. -/
def tickers_csv_map : List (String × String) :=
  [("테슬라", "TSLA"), ("tesla", "TSLA"), ("애플", "AAPL"), ("apple", "AAPL")]

/-- A column label of the price dataframe: a flat name, or one pair of a
two-level `MultiIndex`. -/
inductive ColLabel where
  | flat (s : String)
  | pair (l0 l1 : String)
  deriving DecidableEq, Repr

/-- The bundled pandas `DataFrame`, as used by `get_price_data`: `data` is
the column dict (ordered association list), `columnsL` the `_columns` list
(which may disagree with the dict after a renaming collapses keys), `mi`
whether the columns object is a `MultiIndex`, and `nrows` the index
length. -/
structure PyFrame where
  data : List (ColLabel × List PyNum)
  columnsL : List ColLabel
  mi : Bool
  nrows : Nat
  deriving DecidableEq, Repr

/-- Column lookup `data[key]` on the dict, `[]` if the key is absent (the
call sites below only read keys they have checked or just written). -/
def getCol (f : PyFrame) (k : ColLabel) : List PyNum :=
  (dictFind? f.data k).getD []

/-- The `DataFrame.columns` setter of the bundled pandas (pandas.py):
assigning an equal-length label list rebuilds the dict by popping each old
key into its new label in order (duplicate new labels therefore collapse,
last value winning); a different length only replaces `_columns`.  The
assigned list is a plain list, so `mi` becomes false. -/
def set_columns (f : PyFrame) (newCols : List ColLabel) : PyFrame :=
  if newCols.length ≠ f.columnsL.length then
    { f with columnsL := newCols, mi := false }
  else
    { data := (f.columnsL.zip newCols).foldl
        (fun nd p => dictInsert nd p.2 (getCol f p.1)) [],
      columnsL := newCols, mi := false, nrows := f.nrows }

/-- `DataFrame.__setitem__` of the bundled pandas: assign the column in the
dict and append the label to `_columns` if new. -/
def setItem (f : PyFrame) (k : ColLabel) (v : List PyNum) : PyFrame :=
  { f with data := dictInsert f.data k v,
           columnsL := if f.columnsL.contains k then f.columnsL else f.columnsL ++ [k] }

/-- `MultiIndex.get_level_values(0)` applied to one label, the result used
as a flat column name. -/
def get_level_values0 : ColLabel → ColLabel
  | .pair l0 _ => .flat l0
  | .flat s => .flat s

/-- One step of `Series.pct_change` of the bundled pandas: the return for a
bar given the previous close.  A previous close of 0 or NaN yields NaN
(`prev in (0, math.nan)`); otherwise `(curr - prev) / prev`, NaN if the
current close is NaN. -/
def pctStep : PyNum → PyNum → PyNum
  | .nan, _ => .nan
  | .num p, c =>
      if p = 0 then .nan
      else match c with
        | .nan => .nan
        | .num cq => .num ((cq - p) / p)

/-- The loop of `Series.pct_change`: one entry per adjacent pair. -/
def pctTail : List PyNum → List PyNum
  | a :: b :: t => pctStep a b :: pctTail (b :: t)
  | _ => []

/-- `Series.pct_change` of the bundled pandas: `out = [nan]` followed by the
pairwise returns. -/
def pct_change (l : List PyNum) : List PyNum := PyNum.nan :: pctTail l

/-- `get_price_data` (app.py) modelled exactly as written.  The outcome of
`yf.download` is passed in as an `Except`.  The function body is a `try:`
block with no `except` clause — Python rejects the file with a SyntaxError —
so, reading the lines as they stand: an exception from the download
propagates to the caller (there is no handler), and on success the block
flattens a `MultiIndex` column set via `get_level_values(0)` and then hits
the unconditional `return None`; the `data.empty` / `"Close"` / `Return`
lines that follow are unreachable. -/
def get_price_data_asWritten (download : Except String PyFrame) :
    Except String (Option PyFrame) :=
  match download with
  | .error e => .error e
  | .ok data =>
      let _flattened :=
        if data.mi then set_columns data (data.columnsL.map get_level_values0)
        else data
      .ok none

/-- Modelled from the spec: the price-series normalization that
`get_price_data`'s docstring and test describe but its mangled body does not
implement (§4.2 of the spec).  A failed fetch becomes `none`; hierarchical
ticker-qualified columns are collapsed to their field names; an empty or
close-less result is `none`; otherwise a `Return` column of
period-over-period ratios is added. -/
def get_price_data_spec (download : Except String PyFrame) : Option PyFrame :=
  match download with
  | .error _ => none
  | .ok data =>
      let flatd :=
        if data.mi then
          set_columns data (data.columnsL.map fun c =>
            match c with
            | .pair _ l1 => ColLabel.flat l1
            | .flat s => ColLabel.flat s)
        else data
      if flatd.nrows = 0 then none
      else if flatd.columnsL.contains (ColLabel.flat "Close") then
        some (setItem flatd (.flat "Return") (pct_change (getCol flatd (.flat "Close"))))
      else none

/-- The upstream frame of the repository's own test
`test_get_price_data_flattens_and_returns`: 3 rows, `MultiIndex` columns
`[("AAPL","Open"), ("AAPL","Close")]`, closes `[2, 3, 4]`. -/
def testDownloadFrame : PyFrame :=
  { data := [(.pair "AAPL" "Open", [.num 1, .num 2, .num 3]),
             (.pair "AAPL" "Close", [.num 2, .num 3, .num 4])],
    columnsL := [.pair "AAPL" "Open", .pair "AAPL" "Close"],
    mi := true,
    nrows := 3 }

/-- `pd.to_numeric(v, errors="coerce")` of the bundled pandas on one scalar
cell: `float(v)` on success, NaN on failure. -/
def to_numeric_cell : Cell → PyNum
  | .num q => .num q
  | .nonNumeric _ => .nan

/-- `pd.to_numeric(series, errors="coerce")` of the bundled pandas on a
column. -/
def to_numeric_coerce (l : List Cell) : List PyNum := l.map to_numeric_cell

/-- `Series.fillna` of the bundled pandas: replace NaN entries by `v`. -/
def fillna (v : ℚ) (l : List PyNum) : List PyNum :=
  l.map fun x => match x with | .nan => .num v | n => n

/-- Elementwise division of a pandas Series by a scalar (`weights / 100` in
app.py; NaN divided by a number stays NaN). -/
def divScalar (l : List PyNum) (d : ℚ) : List PyNum :=
  l.map fun x => match x with | .nan => .nan | .num q => .num (q / d)

/-- `Series.__pow__` of the bundled pandas: elementwise power (NaN raised to
a power stays NaN). -/
def powScalar (l : List PyNum) (e : ℕ) : List PyNum :=
  l.map fun x => match x with | .nan => .nan | .num q => .num (q ^ e)

/-- `Series.sum` of the bundled pandas: add the entries, skipping NaN. -/
def seriesSum (l : List PyNum) : ℚ :=
  l.foldl (fun acc x => match x with | .nan => acc | .num q => acc + q) 0

/-- The squared risk statistic of app.py's portfolio block:
`weights = to_numeric(col, errors="coerce").fillna(0) / 100` followed by
`(weights ** 2).sum()`; the displayed risk is its square root
(`** 0.5`). -/
def portfolioRiskSq (weights : List Cell) : ℚ :=
  seriesSum (powScalar (divScalar (fillna 0 (to_numeric_coerce weights)) 100) 2)

/-- The coerced weight fractions the spec describes: each weight divided by
100, a non-coercible weight contributing 0. -/
def coercedFracs (ws : List Cell) : List ℚ :=
  ws.map fun c => (match c with | .num q => q | .nonNumeric _ => 0) / 100

/-- The numeric value a weight cell is treated as after NaN is replaced by
zero. -/
def cellCoerce0 : Cell → ℚ
  | .num q => q
  | .nonNumeric _ => 0

/-- Whether a weight cell fails numeric coercion (its `to_numeric` result is
NaN). -/
def cellIsNonNum : Cell → Bool
  | .num _ => false
  | .nonNumeric _ => true

/-- The portfolio dataframe as `extract_ticker_weight` sees it: the `종목`
(holding) and `비중(%)` (weight) columns, each `none` when the dataframe
lacks that column (so that accessing it raises `KeyError`). -/
structure PortFrame where
  stocks? : Option (List String)
  weights? : Option (List Cell)
  deriving DecidableEq, Repr

/-- A portfolio dataframe built from rows `(holding, weight)`, both columns
present. -/
def portFrameOfRows (rows : List (String × Cell)) : PortFrame :=
  ⟨some (rows.map Prod.fst), some (rows.map Prod.snd)⟩

/-- The Python exceptions relevant to `extract_ticker_weight`: `KeyError`
from a missing dict key, `IndexError` from `iloc[0]` on an empty
selection. -/
inductive PyErr where
  | keyError
  | idxError
  deriving DecidableEq, Repr

/-- The first weight among the rows whose holding equals the ticker
(`df.loc[df["종목"] == ticker, "비중(%)"].iloc[0]`). -/
def firstWeight : List (String × Cell) → String → Option Cell
  | [], _ => none
  | r :: t, tk => if r.1 = tk then some r.2 else firstWeight t tk

/-- The body of the `try:` block of `extract_ticker_weight` (app.py), with
every exception made explicit: `df["종목"]` raises `KeyError` when the
column is missing; a ticker not among the holdings returns `None`; the
`loc` access raises `KeyError` when `비중(%)` is missing; otherwise the
first matching row's weight is coerced with
`pd.to_numeric(…, errors="coerce")`. -/
def extract_core (df : PortFrame) (ticker : String) : Except PyErr (Option PyNum) :=
  match df.stocks? with
  | none => .error .keyError
  | some stocks =>
      if ticker ∈ stocks then
        match df.weights? with
        | none => .error .keyError
        | some ws =>
            match firstWeight (stocks.zip ws) ticker with
            | some c => .ok (some (to_numeric_cell c))
            | none => .error .idxError
      else .ok none

/-- `extract_ticker_weight` (app.py): run the body, catching `KeyError`
only — the handler surfaces a warning (the returned Bool) and returns
`None`; any other exception propagates. -/
def extract_ticker_weight (df : PortFrame) (ticker : String) :
    Except PyErr (Option PyNum × Bool) :=
  match extract_core df ticker with
  | .ok v => .ok (v, false)
  | .error .keyError => .ok (none, true)
  | .error e => .error e

/-- What the TSLA block of `main` (app.py) reports: `notHeld` when
`extract_ticker_weight` returns `None` (`st.info`), otherwise the shown
weight, whether the NaN warning fired, and whether the over-concentration
warning fired. -/
inductive TslaOutcome where
  | notHeld
  | held (shownWeight : ℚ) (nanWarned flagged : Bool)
  deriving DecidableEq, Repr

/-- The TSLA block of `main` (app.py): on `None`, report not held; on NaN,
warn and substitute 0.0; then flag when the weight exceeds 30. -/
def tsla_block (df : PortFrame) : Except PyErr TslaOutcome :=
  match extract_ticker_weight df "TSLA" with
  | .error e => .error e
  | .ok (none, _) => .ok .notHeld
  | .ok (some .nan, _) => .ok (.held 0 true (decide ((0 : ℚ) > 30)))
  | .ok (some (.num q), _) => .ok (.held q false (decide (q > 30)))

/-- The cache key of `get_price_data`: the `(ticker, period)` argument
pair. -/
abbrev CacheKey := String × String

/-- The state an external-fetch decorator threads: the memo table and the
number of external fetches performed so far. -/
structure MemoState where
  table : List (CacheKey × Option PyFrame)
  fetches : Nat
  deriving DecidableEq, Repr

/-- `_DummyStreamlit.cache_data` (app.py): the identity decorator — it
returns the function unchanged, so every call performs the external
fetch. -/
def dummyCall (f : CacheKey → Option PyFrame) (k : CacheKey) (s : MemoState) :
    Option PyFrame × MemoState :=
  (f k, { s with fetches := s.fetches + 1 })

/-- Modelled from the spec: the real `st.cache_data` decorator (the
streamlit library is not among the sources) memoizes the wrapped function
by its arguments for the process lifetime — fetch on a cache miss, pure
read on a hit. -/
def cachedCall (f : CacheKey → Option PyFrame) (k : CacheKey) (s : MemoState) :
    Option PyFrame × MemoState :=
  match dictFind? s.table k with
  | some v => (v, s)
  | none => (f k, { table := dictInsert s.table k (f k), fetches := s.fetches + 1 })

theorem detectLoop_eq_find (textLow : String) (m : List (String × String)) :
    detectLoop textLow m =
      (m.find? fun p =>
        strHasSub textLow p.1 || strHasSub textLow (pyLower p.2)).map Prod.snd := by
  induction m with
  | nil => rfl
  | cons hd tl ih =>
      cases hd with
      | mk key tkr =>
          by_cases h : (strHasSub textLow key || strHasSub textLow (pyLower tkr)) = true
          · simp [detectLoop, List.find?, h]
          · simp [detectLoop, List.find?, h, ih]

/-- C5: `detect_ticker` lower-cases the query and returns the symbol of the
first map entry (in iteration order) whose alias key or lower-cased symbol
is a substring of the lowered query; it returns none when no entry matches
and for the empty query.  On the configured ticker map,
`detect_ticker "테슬라 전망은?" = some "TSLA"` and
`detect_ticker "Apple outlook" = some "AAPL"`. -/
theorem detect_ticker_first_substring_match :
    (∀ (m : List (String × String)) (q : String),
      detect_ticker m q =
        if q = "" then none
        else (m.find? fun p =>
          strHasSub (pyLower q) p.1 || strHasSub (pyLower q) (pyLower p.2)).map Prod.snd)
    ∧ detect_ticker tickers_csv_map "테슬라 전망은?" = some "TSLA"
    ∧ detect_ticker tickers_csv_map "Apple outlook" = some "AAPL"
    ∧ detect_ticker tickers_csv_map "" = none
    ∧ detect_ticker tickers_csv_map "금리 인상 영향은?" = none := by
  refine ⟨fun m q => ?_, by decide, by decide, by decide, by decide⟩
  by_cases h : q = ""
  · simp [detect_ticker, h]
  · simp [detect_ticker, h, detectLoop_eq_find]

/-- C9: `load_ticker_map` never fails to construct: on any load failure it
returns the built-in default mapping `{"테슬라": "TSLA", "애플": "AAPL"}`
together with a surfaced (non-fatal) warning; no exception escapes, the
result being a plain value. -/
theorem load_ticker_map_fallback :
    (∀ e : String, load_ticker_map (Except.error e) = (example_map, true))
    ∧ example_map = [("테슬라", "TSLA"), ("애플", "AAPL")] := by
  exact ⟨fun e => rfl, rfl⟩

/-- C1 (code bug): at the repository's own test input, `get_price_data` as
written returns `None` (its `try:` block, which lacks an `except` clause,
ends in an unconditional `return None`), and even the code's flattening step
takes level 0 — the ticker — so the claimed input would normalize to columns
`["AAPL", "AAPL"]` with no `Close`; the normalization the docstring, test
and spec describe yields a flat `Close` column `[2, 3, 4]` and a `Return`
column `[NaN, 1/2, 1/3]`, whose second element is 0.5. -/
theorem get_price_data_c1_divergence :
    get_price_data_asWritten (.ok testDownloadFrame) = .ok none
    ∧ (set_columns testDownloadFrame
        (testDownloadFrame.columnsL.map get_level_values0)).columnsL
        = [.flat "AAPL", .flat "AAPL"]
    ∧ (get_price_data_spec (.ok testDownloadFrame)).map
        (fun f => getCol f (.flat "Close")) = some [.num 2, .num 3, .num 4]
    ∧ (get_price_data_spec (.ok testDownloadFrame)).map
        (fun f => getCol f (.flat "Return"))
        = some [.nan, .num (1/2), .num (1/3)]
    ∧ (get_price_data_spec (.ok testDownloadFrame)).map PyFrame.mi = some false := by
  refine ⟨rfl, by decide, by decide, ?_, by decide⟩
  norm_num [get_price_data_spec, testDownloadFrame, set_columns, dictInsert,
    dictFind?, getCol, setItem, pct_change, pctTail, pctStep]
  simp +decide

/-- C2 (code bug): an upstream exception (e.g. a network timeout) is not
caught by `get_price_data` as written — its `try:` block has no `except`
clause (the file is a SyntaxError), so the error propagates to the caller —
whereas the behavior the docstring, spec and callers rely on converts it to
the `None` ("no data") result. -/
theorem get_price_data_c2_divergence :
    get_price_data_asWritten (.error "ConnectionTimeout") = .error "ConnectionTimeout"
    ∧ get_price_data_spec (.error "ConnectionTimeout") = none := ⟨rfl, rfl⟩

theorem seriesSum_aux (l : List ℚ) (a : ℚ) :
    (l.map PyNum.num).foldl
      (fun acc x => match x with | .nan => acc | .num q => acc + q) a = a + l.sum := by
  induction l generalizing a with
  | nil => simp [List.foldl]
  | cons h t ih => simp [List.foldl, ih, add_assoc]

theorem pipeline_eq (ws : List Cell) :
    powScalar (divScalar (fillna 0 (to_numeric_coerce ws)) 100) 2
      = ((coercedFracs ws).map fun x => x ^ 2).map PyNum.num := by
  induction ws with
  | nil => rfl
  | cons c t ih =>
      cases c with
      | num q =>
          simp [to_numeric_coerce, to_numeric_cell, fillna, divScalar, powScalar,
            coercedFracs] at ih ⊢
          exact ih
      | nonNumeric s =>
          simp [to_numeric_coerce, to_numeric_cell, fillna, divScalar, powScalar,
            coercedFracs] at ih ⊢
          exact ih

theorem portfolioRiskSq_eq (ws : List Cell) :
    portfolioRiskSq ws = ((coercedFracs ws).map fun x => x ^ 2).sum := by
  unfold portfolioRiskSq seriesSum
  rw [pipeline_eq]
  simpa using seriesSum_aux (((coercedFracs ws).map fun x => x ^ 2)) 0

theorem sumSq_le_sq_sum (l : List ℚ) (h : ∀ x ∈ l, 0 ≤ x) :
    (l.map fun x => x ^ 2).sum ≤ l.sum ^ 2 := by
  induction l with
  | nil => simp
  | cons a t ih =>
      simp only [List.map_cons, List.sum_cons]
      have ha : 0 ≤ a := h a (by simp)
      have ht : ∀ x ∈ t, 0 ≤ x := fun x hx => h x (by simp [hx])
      have hs : 0 ≤ t.sum := List.sum_nonneg ht
      have hih := ih ht
      nlinarith [hih, ha, hs]

/-- C3: the displayed risk statistic is
`sqrt(sum((weight_i / 100) ^ 2))` over the coerced fractions with
non-coercible weights as 0; a single 100% holding gives 1; `n` equal
holdings give `1 / sqrt n`; two 50% holdings square-sum to
`(1/2)^2 + (1/2)^2`; the empty portfolio gives 0, and its TSLA check
reports "not held" — no flag and no failure. -/
theorem concentration_index_formula :
    (∀ ws : List Cell,
      Real.sqrt ((portfolioRiskSq ws : ℚ) : ℝ)
        = Real.sqrt ((((coercedFracs ws).map fun x => x ^ 2).sum : ℚ) : ℝ))
    ∧ Real.sqrt ((portfolioRiskSq [Cell.num 100] : ℚ) : ℝ) = 1
    ∧ (∀ n : ℕ,
        Real.sqrt ((portfolioRiskSq
          (List.replicate n (Cell.num (100 / (n : ℚ)))) : ℚ) : ℝ)
          = 1 / Real.sqrt (n : ℝ))
    ∧ portfolioRiskSq [Cell.num 50, Cell.num 50] = (1/2 : ℚ) ^ 2 + (1/2 : ℚ) ^ 2
    ∧ portfolioRiskSq [] = 0
    ∧ tsla_block (portFrameOfRows []) = .ok .notHeld := by
  refine ⟨fun ws => by rw [portfolioRiskSq_eq], ?_, fun n => ?_, ?_, rfl, rfl⟩
  · have h1 : portfolioRiskSq [Cell.num 100] = 1 := by
      rw [portfolioRiskSq_eq]; norm_num [coercedFracs]
    rw [h1]
    norm_num [Real.sqrt_one]
  · have hfrac : (100 / (n : ℚ)) / 100 = 1 / (n : ℚ) := by
      rw [div_div, mul_comm, ← div_div]
      norm_num
    have hq : portfolioRiskSq (List.replicate n (Cell.num (100 / (n : ℚ))))
        = 1 / (n : ℚ) := by
      rw [portfolioRiskSq_eq]
      simp only [coercedFracs, List.map_replicate, hfrac, List.sum_replicate,
        nsmul_eq_mul]
      rcases Nat.eq_zero_or_pos n with h0 | hpos
      · simp [h0]
      · have hn : (n : ℚ) ≠ 0 := by exact_mod_cast hpos.ne.symm
        field_simp
        ring
    rw [hq]
    push_cast
    rw [one_div, Real.sqrt_inv, one_div]
  · rw [portfolioRiskSq_eq]; norm_num [coercedFracs]

/-- C4 counterexample: two holdings of weight 100 each — every weight in
[0, 100], merely not summing to 100 — give a concentration index of
`sqrt 2 > 1`, so the claimed [0, 1] bound fails. -/
theorem concentration_index_gt_one_counterexample :
    portfolioRiskSq [Cell.num 100, Cell.num 100] = 2
    ∧ ¬ Real.sqrt ((portfolioRiskSq [Cell.num 100, Cell.num 100] : ℚ) : ℝ) ≤ 1 := by
  have h2 : portfolioRiskSq [Cell.num 100, Cell.num 100] = 2 := by
    rw [portfolioRiskSq_eq]; norm_num [coercedFracs]
  refine ⟨h2, ?_⟩
  rw [h2]
  push_cast
  rw [not_le]
  rw [show (1 : ℝ) = Real.sqrt 1 by rw [Real.sqrt_one]]
  exact Real.sqrt_lt_sqrt (by norm_num) (by norm_num)

/-- C4 amended: the concentration index is non-negative for every
portfolio, and it is bounded by 1 whenever the coerced weight fractions are
non-negative and sum to at most 1 (i.e. the weights sum to at most
100%). -/
theorem concentration_index_bounds_amended (ws : List Cell)
    (h1 : ∀ x ∈ coercedFracs ws, 0 ≤ x)
    (h2 : (coercedFracs ws).sum ≤ 1) :
    0 ≤ Real.sqrt ((portfolioRiskSq ws : ℚ) : ℝ)
    ∧ Real.sqrt ((portfolioRiskSq ws : ℚ) : ℝ) ≤ 1 := by
  refine ⟨Real.sqrt_nonneg _, ?_⟩
  have hsum : 0 ≤ (coercedFracs ws).sum := List.sum_nonneg h1
  have hq : portfolioRiskSq ws ≤ 1 := by
    rw [portfolioRiskSq_eq]
    calc ((coercedFracs ws).map fun x => x ^ 2).sum
        ≤ (coercedFracs ws).sum ^ 2 := sumSq_le_sq_sum _ h1
      _ ≤ 1 := pow_le_one₀ hsum h2
  have hr : ((portfolioRiskSq ws : ℚ) : ℝ) ≤ 1 := by exact_mod_cast hq
  calc Real.sqrt ((portfolioRiskSq ws : ℚ) : ℝ)
      ≤ Real.sqrt 1 := Real.sqrt_le_sqrt hr
    _ = 1 := Real.sqrt_one

theorem concentration_index_bounds_witness :
    (∀ x ∈ coercedFracs [Cell.num 60, Cell.num 40], 0 ≤ x)
    ∧ (coercedFracs [Cell.num 60, Cell.num 40]).sum ≤ 1
    ∧ 0 ≤ Real.sqrt ((portfolioRiskSq [Cell.num 60, Cell.num 40] : ℚ) : ℝ)
    ∧ Real.sqrt ((portfolioRiskSq [Cell.num 60, Cell.num 40] : ℚ) : ℝ) ≤ 1 := by
  have h1 : ∀ x ∈ coercedFracs [Cell.num 60, Cell.num 40], 0 ≤ x := by
    norm_num [coercedFracs]
  have h2 : (coercedFracs [Cell.num 60, Cell.num 40]).sum ≤ 1 := by
    norm_num [coercedFracs]
  exact ⟨h1, h2, (concentration_index_bounds_amended _ h1 h2).1,
    (concentration_index_bounds_amended _ h1 h2).2⟩

theorem zip_fst_snd (l : List (String × Cell)) :
    (l.map Prod.fst).zip (l.map Prod.snd) = l := by
  induction l with
  | nil => rfl
  | cons p t ih => simp [ih]

theorem firstWeight_append (pre post : List (String × Cell)) (t : String)
    (c : Cell) (h : t ∉ pre.map Prod.fst) :
    firstWeight (pre ++ (t, c) :: post) t = some c := by
  induction pre with
  | nil => simp [firstWeight]
  | cons p tl ih =>
      simp only [List.map_cons, List.mem_cons] at h
      push_neg at h
      rw [List.cons_append]
      show (if p.1 = t then some p.2 else firstWeight (tl ++ (t, c) :: post) t) = some c
      rw [if_neg (Ne.symm h.1)]
      exact ih h.2

theorem extract_core_present (pre post : List (String × Cell)) (t : String)
    (c : Cell) (h : t ∉ pre.map Prod.fst) :
    extract_core (portFrameOfRows (pre ++ (t, c) :: post)) t
      = .ok (some (to_numeric_cell c)) := by
  have hmem : t ∈ (pre ++ (t, c) :: post).map Prod.fst := by simp
  show (if t ∈ (pre ++ (t, c) :: post).map Prod.fst then _ else _) = _
  rw [if_pos hmem]
  show (match firstWeight
      (((pre ++ (t, c) :: post).map Prod.fst).zip
        ((pre ++ (t, c) :: post).map Prod.snd)) t with
    | some c => Except.ok (some (to_numeric_cell c))
    | none => Except.error PyErr.idxError) = _
  rw [zip_fst_snd, firstWeight_append pre post t c h]

theorem extract_core_absent (rows : List (String × Cell)) (t : String)
    (h : t ∉ rows.map Prod.fst) :
    extract_core (portFrameOfRows rows) t = .ok none := by
  show (if t ∈ rows.map Prod.fst then _ else _) = _
  rw [if_neg h]

/-- C7: a portfolio entry whose weight cannot be coerced to a number is
reported by `extract_ticker_weight` as NaN — a signal distinct from a true
zero and from the "not held" `None` — while the aggregate risk computation
treats it exactly as a zero weight and completes (no exception: the result
is an `ok` value and the risk a plain rational). -/
theorem nonnumeric_weight_nan_and_zero (pre post : List (String × Cell))
    (t s : String) (h : t ∉ pre.map Prod.fst) :
    extract_ticker_weight (portFrameOfRows (pre ++ (t, Cell.nonNumeric s) :: post)) t
      = .ok (some .nan, false)
    ∧ portfolioRiskSq ((pre ++ (t, Cell.nonNumeric s) :: post).map Prod.snd)
      = portfolioRiskSq ((pre ++ (t, Cell.num 0) :: post).map Prod.snd) := by
  constructor
  · unfold extract_ticker_weight
    rw [extract_core_present pre post t (Cell.nonNumeric s) h]
    rfl
  · rw [portfolioRiskSq_eq, portfolioRiskSq_eq]
    simp [coercedFracs, to_numeric_cell]

theorem nonnumeric_weight_nan_and_zero_witness :
    ("TSLA" ∉ ([] : List (String × Cell)).map Prod.fst)
    ∧ extract_ticker_weight (portFrameOfRows [("TSLA", Cell.nonNumeric "abc")]) "TSLA"
        = .ok (some .nan, false)
    ∧ portfolioRiskSq [Cell.nonNumeric "abc"] = portfolioRiskSq [Cell.num 0] := by
  have h : "TSLA" ∉ ([] : List (String × Cell)).map Prod.fst := by simp
  exact ⟨h, (nonnumeric_weight_nan_and_zero [] [] "TSLA" "abc" h).1,
    (nonnumeric_weight_nan_and_zero [] [] "TSLA" "abc" h).2⟩

/-- C8: for the designated holding TSLA — if it is present (first occurrence
with weight cell `c`), the block shows the coerced weight (0 for a NaN,
with its own warning) and raises the over-concentration warning exactly
when that weight exceeds 30; if it is absent, `extract_ticker_weight`
returns `None` and the block reports "not held" rather than a false
flag. -/
theorem tsla_flag_threshold (pre post : List (String × Cell)) (c : Cell)
    (h : "TSLA" ∉ pre.map Prod.fst) :
    tsla_block (portFrameOfRows (pre ++ ("TSLA", c) :: post))
      = .ok (.held (cellCoerce0 c) (cellIsNonNum c) (decide (cellCoerce0 c > 30)))
    ∧ ∀ rows : List (String × Cell), "TSLA" ∉ rows.map Prod.fst →
        extract_ticker_weight (portFrameOfRows rows) "TSLA" = .ok (none, false)
        ∧ tsla_block (portFrameOfRows rows) = .ok .notHeld := by
  constructor
  · unfold tsla_block extract_ticker_weight
    rw [extract_core_present pre post "TSLA" c h]
    cases c with
    | num q => rfl
    | nonNumeric s => rfl
  · intro rows hr
    have he : extract_ticker_weight (portFrameOfRows rows) "TSLA" = .ok (none, false) := by
      unfold extract_ticker_weight
      rw [extract_core_absent rows "TSLA" hr]
    refine ⟨he, ?_⟩
    unfold tsla_block
    rw [he]

theorem tsla_flag_threshold_witness :
    ("TSLA" ∉ ([] : List (String × Cell)).map Prod.fst)
    ∧ tsla_block (portFrameOfRows [("TSLA", Cell.num 60)])
        = .ok (.held 60 false true)
    ∧ tsla_block (portFrameOfRows [("TSLA", Cell.num 25)])
        = .ok (.held 25 false false)
    ∧ extract_ticker_weight (portFrameOfRows [("AAPL", Cell.num 40)]) "TSLA"
        = .ok (none, false)
    ∧ tsla_block (portFrameOfRows [("AAPL", Cell.num 40)]) = .ok .notHeld := by
  have h : "TSLA" ∉ ([] : List (String × Cell)).map Prod.fst := by simp
  have habs : "TSLA" ∉ [("AAPL", Cell.num 40)].map Prod.fst := by simp
  have h60 := (tsla_flag_threshold [] [] (Cell.num 60) h).1
  have h25 := (tsla_flag_threshold [] [] (Cell.num 25) h).1
  have habs2 := (tsla_flag_threshold [] [] (Cell.num 60) h).2 [("AAPL", Cell.num 40)] habs
  refine ⟨h, ?_, ?_, habs2.1, habs2.2⟩
  · show tsla_block (portFrameOfRows ([] ++ [("TSLA", Cell.num 60)]))
        = .ok (.held 60 false true)
    rw [h60]
    norm_num [cellCoerce0, cellIsNonNum]
  · show tsla_block (portFrameOfRows ([] ++ [("TSLA", Cell.num 25)]))
        = .ok (.held 25 false false)
    rw [h25]
    norm_num [cellCoerce0, cellIsNonNum]

/-- C10: on a dataframe lacking the `종목` or the `비중(%)` column,
`extract_ticker_weight` returns `None` and never lets the exception
propagate (the result is an `ok` value); whenever the missing column is
actually touched — so that a `KeyError` results — the handler also
surfaces its warning. -/
theorem missing_columns_keyerror_caught (df : PortFrame) (t : String)
    (h : df.stocks? = none ∨ df.weights? = none) :
    (∃ w, extract_ticker_weight df t = .ok (none, w))
    ∧ (extract_core df t = .error .keyError →
        extract_ticker_weight df t = .ok (none, true)) := by
  cases df with
  | mk stocks? weights? =>
      cases stocks? with
      | none =>
          exact ⟨⟨true, rfl⟩, fun _ => rfl⟩
      | some stocks =>
          have hw : weights? = none := by
            rcases h with h | h
            · exact absurd h (by simp)
            · exact h
          subst hw
          by_cases ht : t ∈ stocks
          · have hc : extract_core ⟨some stocks, none⟩ t = .error .keyError := by
              show (if t ∈ stocks then _ else _) = _
              rw [if_pos ht]
            constructor
            · refine ⟨true, ?_⟩
              unfold extract_ticker_weight
              rw [hc]
            · intro _
              unfold extract_ticker_weight
              rw [hc]
          · have hc : extract_core ⟨some stocks, none⟩ t = .ok none := by
              show (if t ∈ stocks then _ else _) = _
              rw [if_neg ht]
            constructor
            · refine ⟨false, ?_⟩
              unfold extract_ticker_weight
              rw [hc]
            · intro hko
              rw [hc] at hko
              exact absurd hko (by simp)

theorem missing_columns_keyerror_caught_witness :
    ((PortFrame.mk (some ["TSLA"]) none).stocks? = none
      ∨ (PortFrame.mk (some ["TSLA"]) none).weights? = none)
    ∧ extract_ticker_weight (PortFrame.mk (some ["TSLA"]) none) "TSLA"
        = .ok (none, true) := by
  refine ⟨Or.inr rfl, ?_⟩
  exact (missing_columns_keyerror_caught (PortFrame.mk (some ["TSLA"]) none)
    "TSLA" (Or.inr rfl)).2 (by rfl)

/-- C6 counterexample: under the repository's own decorator
(`_DummyStreamlit.cache_data`, the identity), a second call with the very
same `(ticker, period)` key performs a second external fetch: the fetch
count goes from 1 to 2. -/
theorem dummy_cache_refetch_counterexample :
    ((dummyCall (fun _ => none) ("TSLA", "6mo") ⟨[], 0⟩).2).fetches = 1
    ∧ ((dummyCall (fun _ => none) ("TSLA", "6mo")
        ((dummyCall (fun _ => none) ("TSLA", "6mo") ⟨[], 0⟩).2)).2).fetches = 2 :=
  ⟨rfl, rfl⟩

theorem dictFind?_insert [DecidableEq κ] (d : List (κ × α)) (k : κ) (v : α) :
    dictFind? (dictInsert d k v) k = some v := by
  induction d with
  | nil => simp [dictInsert, dictFind?]
  | cons p t ih =>
      by_cases hp : p.1 = k
      · simp [dictInsert, dictFind?, hp]
      · simp [dictInsert, dictFind?, hp, ih]

/-- C6 amended: with the memoizing `st.cache_data` decorator (modelled from
the spec; the repository's `_DummyStreamlit` fallback instead re-fetches on
every call), a repeated call with the same `(ticker, period)` key is a pure
read: it returns the same result, leaves the state unchanged, and performs
no additional external fetch. -/
theorem price_cache_memoization_amended (f : CacheKey → Option PyFrame)
    (k : CacheKey) (s : MemoState) :
    cachedCall f k ((cachedCall f k s).2) = cachedCall f k s
    ∧ ((cachedCall f k ((cachedCall f k s).2)).2).fetches
        = ((cachedCall f k s).2).fetches := by
  have hmain : cachedCall f k ((cachedCall f k s).2) = cachedCall f k s := by
    unfold cachedCall
    cases hfind : dictFind? s.table k with
    | some v => simp [hfind]
    | none => simp [hfind, dictFind?_insert]
  exact ⟨hmain, by rw [hmain]⟩

end AIAdvisor
